import Mathlib

/-!
Shallow embedding of the statistical pipeline of `src/app.py` (a Streamlit
DIA-proteomics QC app) and proofs about it.

The embedded functions are `detect_column_types`, `auto_annotate_columns`,
`clean_intensity_data`, the count computation of `plot_unique_proteins`, the
CV computation of `plot_cv_analysis`, the PCA preprocessing of `plot_pca`,
and the annotation fill-in step of Module 1 (lines 324-341).

Modelling conventions:
* A raw table cell is `Cell`: `num q` for a cell that `pd.to_numeric`
  coerces to the number `q` (numeric-looking strings included), `text s`
  for a non-missing cell that fails numeric coercion, `na` for an absent
  cell (NaN).  Machine floats are modelled as exact rationals.
* pandas `DataFrame`s are column-major association lists
  `List (String × List Cell)`; a rectangular frame has all cell lists of
  equal length.
* Python dicts are association lists with insert-or-overwrite semantics
  (`dictInsert`); insertion order is preserved as in CPython.
* `numpy` square root (used inside `pandas.Series.std`) is irrational in
  general, so the CV computation is parametrised by an arbitrary function
  `sqrtFn : ℚ → ℚ`; every theorem about it is proved for all `sqrtFn`.
-/

/-- One raw cell of the uploaded table. -/
inductive Cell where
  | num : ℚ → Cell
  | text : String → Cell
  | na : Cell
deriving DecidableEq, Repr

/-- Result of `pd.to_numeric(cell, errors='coerce')`: coercible cells keep
their value, text and absent cells become NaN (`none`). -/
def toNumericCell : Cell → Option ℚ
  | .num q => some q
  | _ => none

/-- pandas `notna` on one cell.  Text cells are not NA. -/
def Cell.notna : Cell → Bool
  | .na => false
  | _ => true

/-- Whether a cell is a text cell. -/
def Cell.isText : Cell → Bool
  | .text _ => true
  | _ => false

/-- A column whose cells are all numbers or absent (no text).  pandas
numeric reductions (`mean`, `std`) raise on text cells, so theorems about
them carry this side condition. -/
def noText (cells : List Cell) : Bool :=
  cells.all fun c => !c.isText

/-- Column-major data frame: list of (column name, cells). -/
abbrev DataFrame := List (String × List Cell)

/-- Whether every cell of a column maps to NaN under numeric coercion,
i.e. `pd.to_numeric(df[col], errors='coerce').isna().all()`. -/
def isAllNonNumeric (cells : List Cell) : Bool :=
  cells.all fun c => (toNumericCell c).isNone

/-- `detect_column_types` of src/app.py: a column goes to the metadata list
when all of its coerced values are NaN, otherwise to the numerical list;
source order is kept. -/
def detect_column_types (df : DataFrame) : List String × List String :=
  ((df.filter fun c => isAllNonNumeric c.2).map Prod.fst,
   (df.filter fun c => !isAllNonNumeric c.2).map Prod.fst)

/-- One value of the `column_annotations` dict of src/app.py:
`{'condition': ..., 'renamed': ...}`. -/
structure AnnEntry where
  condition : String
  renamed : String
deriving DecidableEq, Repr

/-- Python dict from column name to annotation entry, as an ordered
association list. -/
abbrev AnnDict := List (String × AnnEntry)

/-- Python `k in d`. -/
def dictContains (d : AnnDict) (k : String) : Bool :=
  d.any fun p => p.1 == k

/-- Python `d[k] = v`: overwrite in place if the key exists, else append. -/
def dictInsert (d : AnnDict) (k : String) (v : AnnEntry) : AnnDict :=
  if dictContains d k then d.map fun p => if p.1 = k then (k, v) else p
  else d ++ [(k, v)]

/-- Python `d[k]` (as an `Option`). -/
def dictLookup (d : AnnDict) (k : String) : Option AnnEntry :=
  (d.find? fun p => p.1 == k).map Prod.snd

/-- The entry `auto_annotate_columns` stores for position `idx` given the
midpoint: `{'condition': 'Control', 'renamed': f'C{idx+1}'}` for the first
half, `{'condition': 'Treatment', 'renamed': f'T{idx-midpoint+1}'}` for the
rest.  Python's decimal rendering of an `int` is `Nat.repr`. -/
def annFor (midpoint idx : Nat) : AnnEntry :=
  if idx < midpoint then ⟨"Control", "C" ++ Nat.repr (idx + 1)⟩
  else ⟨"Treatment", "T" ++ Nat.repr (idx - midpoint + 1)⟩

/-- `auto_annotate_columns` of src/app.py: enumerate the numerical columns,
split at `len // 2`. -/
def auto_annotate_columns (numerical_cols : List String) : AnnDict :=
  let midpoint := numerical_cols.length / 2
  numerical_cols.enum.foldl (fun anns p => dictInsert anns p.2 (annFor midpoint p.1)) []

/-- The annotation fill-in of Module 1 (src/app.py lines 339-341): for each
numerical column not yet annotated, add `{'condition': 'Control',
'renamed': col}`. -/
def fill_missing_anns (anns : AnnDict) (numerical_cols : List String) : AnnDict :=
  numerical_cols.foldl
    (fun d col => if dictContains d col then d else d ++ [(col, ⟨"Control", col⟩)]) anns

/-- The whole default-annotation code path of Module 1 (src/app.py lines
324-341): `auto_annotate_columns` runs only when the session dict is empty
and there are numerical columns; afterwards missing columns are filled in
with the `Control`/identity default. -/
def annotate_step (existing : AnnDict) (numerical_cols : List String) : AnnDict :=
  let base :=
    if existing = [] ∧ numerical_cols ≠ [] then auto_annotate_columns numerical_cols
    else existing
  fill_missing_anns base numerical_cols

/-- `df[name]`: the cells of the named column (first match; columns coming
out of `pd.read_csv` have unique names). -/
def colCells (df : DataFrame) (name : String) : List Cell :=
  ((df.find? fun c => c.1 == name).map Prod.snd).getD []

/-- `Series.replace([0, 1], np.nan)` on one cell. -/
def replace01 : Cell → Cell
  | .num q => if q = 0 ∨ q = 1 then .na else .num q
  | c => c

/-- `clean_intensity_data` of src/app.py: select the numerical columns and
replace raw values 0 and 1 by NaN. -/
def clean_intensity_data (df : DataFrame) (numerical_cols : List String) : DataFrame :=
  numerical_cols.map fun c => (c, (colCells df c).map replace01)

/-- `Series.notna().sum()`: number of non-NA cells. -/
def notnaCount (cells : List Cell) : Nat :=
  (cells.filter Cell.notna).length

/-- The bar heights of `plot_unique_proteins` in src/app.py: per numerical
column, the count of non-NA cells after cleaning. -/
def unique_protein_counts (df : DataFrame) (numerical_cols : List String) : List Nat :=
  let df_clean := clean_intensity_data df numerical_cols
  numerical_cols.map fun c => notnaCount (colCells df_clean c)

/-- The numeric values surviving `Series.dropna()` (for a column without
text cells this is exactly pandas' behaviour). -/
def dropnaVals (cells : List Cell) : List ℚ :=
  cells.filterMap toNumericCell

/-- Arithmetic mean of a list of rationals (`Series.mean` on the
non-empty case). -/
def listMean (l : List ℚ) : ℚ :=
  l.sum / l.length

/-- `Series.mean()` with pandas' skip-NA semantics: `none` models the NaN
returned on an all-NA series. -/
def seriesMean (cells : List Cell) : Option ℚ :=
  let vals := dropnaVals cells
  if vals.length = 0 then none else some (listMean vals)

/-- Sample variance with pandas' default `ddof=1`. -/
def sampleVar (l : List ℚ) : ℚ :=
  (l.map fun x => (x - listMean l) ^ 2).sum / ((l.length : ℚ) - 1)

/-- `Series.std()` (ddof=1), parametrised by the square-root function. -/
def sampleStd (sqrtFn : ℚ → ℚ) (l : List ℚ) : ℚ :=
  sqrtFn (sampleVar l)

/-- One CV value of `plot_cv_analysis`: `(std / mean) * 100`. -/
def cvOf (sqrtFn : ℚ → ℚ) (vals : List ℚ) : ℚ :=
  sampleStd sqrtFn vals / listMean vals * 100

/-- Number of rows of a rectangular column-major frame. -/
def nRows (df : DataFrame) : Nat :=
  (df.head?.map fun c => c.2.length).getD 0

/-- Row `i` of the frame, with column names attached (one row of
`DataFrame.iterrows`). -/
def namedRow (df : DataFrame) (i : Nat) : List (String × Cell) :=
  df.map fun c => (c.1, c.2.getD i .na)

/-- All rows of the frame, with column names attached. -/
def namedRows (df : DataFrame) : List (List (String × Cell)) :=
  (List.range (nRows df)).map (namedRow df)

/-- `row[cols]`: the cells of the given columns of one row, in the order of
`cols`. -/
def rowSelect (row : List (String × Cell)) (cols : List String) : List Cell :=
  cols.map fun c => ((row.find? fun p => p.1 == c).map Prod.snd).getD .na

/-- `annotations[col]['condition']` (defaulting to `""` where Python would
raise a `KeyError`; all theorems only depend on equality with `"Control"`
or `"Treatment"`). -/
def annCondition (anns : AnnDict) (k : String) : String :=
  ((dictLookup anns k).map (·.condition)).getD ""

/-- `plot_cv_analysis` of src/app.py up to its numeric output: the
`cv_data` list of (condition label, CV) pairs, built row by row; a CV entry
is appended for a condition group only when the row has more than one
non-NA value in that group's columns. -/
def plot_cv_data (sqrtFn : ℚ → ℚ) (df : DataFrame) (numerical_cols : List String)
    (anns : AnnDict) : List (String × ℚ) :=
  let df_clean := clean_intensity_data df numerical_cols
  let control_cols := numerical_cols.filter fun c => annCondition anns c == "Control"
  let treatment_cols := numerical_cols.filter fun c => annCondition anns c == "Treatment"
  (namedRows df_clean).foldl
    (fun cv_data row =>
      let control_vals := dropnaVals (rowSelect row control_cols)
      let cv1 :=
        if 1 < control_vals.length then cv_data ++ [("Control", cvOf sqrtFn control_vals)]
        else cv_data
      let treatment_vals := dropnaVals (rowSelect row treatment_cols)
      if 1 < treatment_vals.length then cv1 ++ [("Treatment", cvOf sqrtFn treatment_vals)]
      else cv1)
    []

/-- Row `i` of the frame without names (the feature vectors `plot_pca`
filters and imputes). -/
def cellRow (df : DataFrame) (i : Nat) : List Cell :=
  df.map fun c => c.2.getD i .na

/-- All rows of the frame without names. -/
def cellRows (df : DataFrame) : List (List Cell) :=
  (List.range (nRows df)).map (cellRow df)

/-- The row-keeping test of `df_clean.dropna(thresh=len(numerical_cols) * 0.5)`:
keep a feature row when its non-NA count is at least half the number of
samples (the float `0.5` scaling is exact). -/
def keepRow (n : Nat) (row : List Cell) : Bool :=
  decide ((n : ℚ) * (1 / 2) ≤ (notnaCount row : ℚ))

/-- The feature rows surviving the `dropna(thresh=...)` step of `plot_pca`. -/
def pca_kept (df : DataFrame) (numerical_cols : List String) : List (List Cell) :=
  (cellRows (clean_intensity_data df numerical_cols)).filter (keepRow numerical_cols.length)

/-- Column `j` of the kept block (one sample's values across kept features). -/
def pcaCol (kept : List (List Cell)) (j : Nat) : List Cell :=
  kept.map fun r => r.getD j .na

/-- `df_pca.fillna(df_pca.mean())` on one (column index, cell) pair: an NA
cell is replaced by the mean of its column of the kept block (and stays NA
when that column is all NA, as pandas fills with NaN then); any other cell
is unchanged. -/
def fillCell (kept : List (List Cell)) (p : Nat × Cell) : Cell :=
  match p.2 with
  | .na =>
    match seriesMean (pcaCol kept p.1) with
    | some m => .num m
    | none => .na
  | c => c

/-- The PCA input matrix of `plot_pca` in src/app.py: clean, drop sparse
feature rows, impute the remaining NAs column-wise. -/
def plot_pca_matrix (df : DataFrame) (numerical_cols : List String) : List (List Cell) :=
  let kept := pca_kept df numerical_cols
  kept.map fun row => row.enum.map (fillCell kept)

/-- Modelled from the spec's words (for comparison with the source
behaviour, claim C2): a column is Numeric iff every non-missing cell
coerces to a number. -/
def spec_all_nonmissing_coerce (cells : List Cell) : Bool :=
  cells.all fun c => !c.notna || (toNumericCell c).isSome

/-- Modelled from the spec's words (for comparison with the source
behaviour, claim C7): impute each remaining missing cell with the mean of
its own feature row. -/
def spec_row_mean_impute (kept : List (List Cell)) : List (List Cell) :=
  kept.map fun row => row.map fun c =>
    match c with
    | .na =>
      match seriesMean row with
      | some m => Cell.num m
      | none => Cell.na
    | c => c

/-- The PCA input matrix as the spec describes it (claim C7): same row
filter, but per-feature (row-mean) imputation. -/
def spec_pca_matrix (df : DataFrame) (numerical_cols : List String) : List (List Cell) :=
  spec_row_mean_impute (pca_kept df numerical_cols)

/-! ### Decimal rendering of naturals is injective

`Nat.repr` is fuel-based (`Nat.toDigitsCore`); we characterise it through
`Nat.digits` and derive injectivity, which the display names `C1..Ck` /
`T1..Tm` of `auto_annotate_columns` need. -/

lemma toDigitsCore_eq_digits (fuel : Nat) :
    ∀ (n : Nat) (ds : List Char), 0 < n → n ≤ fuel →
      Nat.toDigitsCore 10 fuel n ds =
        ((Nat.digits 10 n).map Nat.digitChar).reverse ++ ds := by
  induction fuel with
  | zero => intro n ds h0 hf; omega
  | succ fuel ih =>
    intro n ds h0 hf
    simp only [Nat.toDigitsCore]
    by_cases hd : n / 10 = 0
    · simp only [hd, if_pos]
      rw [Nat.digits_def' (by norm_num : (1:Nat) < 10) h0, hd]
      simp
    · rw [if_neg hd]
      have h0 : 0 < n / 10 := Nat.pos_of_ne_zero hd
      have hlt : n / 10 < n := Nat.div_lt_self (by omega) (by norm_num)
      rw [ih (n / 10) _ h0 (by omega)]
      rw [Nat.digits_def' (by norm_num : (1:Nat) < 10) (by omega : 0 < n)]
      simp [List.append_assoc]

lemma repr_eq_digits {n : Nat} (h : 0 < n) :
    Nat.repr n = (((Nat.digits 10 n).map Nat.digitChar).reverse).asString := by
  show (Nat.toDigits 10 n).asString = _
  rw [Nat.toDigits, toDigitsCore_eq_digits (n + 1) n [] h (by omega)]
  simp

lemma digitChar_inj_lt : ∀ a < 10, ∀ b < 10, Nat.digitChar a = Nat.digitChar b → a = b := by
  decide

lemma map_digitChar_inj :
    ∀ (l1 l2 : List Nat), (∀ d ∈ l1, d < 10) → (∀ d ∈ l2, d < 10) →
      l1.map Nat.digitChar = l2.map Nat.digitChar → l1 = l2 := by
  intro l1
  induction l1 with
  | nil => intro l2 _ _ h; cases l2 <;> simp_all
  | cons a t ih =>
    intro l2 h1 h2 h
    cases l2 with
    | nil => simp at h
    | cons b t2 =>
      simp only [List.map_cons, List.cons.injEq] at h
      have hab : a = b :=
        digitChar_inj_lt a (h1 a (by simp)) b (h2 b (by simp)) h.1
      have ht : t = t2 :=
        ih t2 (fun d hd => h1 d (by simp [hd])) (fun d hd => h2 d (by simp [hd])) h.2
      rw [hab, ht]

lemma asString_inj {l1 l2 : List Char} (h : l1.asString = l2.asString) : l1 = l2 := by
  have h2 := congrArg String.data h
  simpa [List.asString] using h2

lemma repr_pos_ne_repr_zero {n : Nat} (hn : 0 < n) : Nat.repr n ≠ Nat.repr 0 := by
  rw [repr_eq_digits hn, show Nat.repr 0 = (['0'] : List Char).asString from rfl]
  intro h
  have h2 := asString_inj h
  have h3 : (Nat.digits 10 n).map Nat.digitChar = ['0'] := by
    have h4 := congrArg List.reverse h2
    simpa using h4
  rcases hds : Nat.digits 10 n with _ | ⟨d, ds⟩
  · rw [hds] at h3; simp at h3
  · rw [hds] at h3
    rcases ds with _ | ⟨e, es⟩
    · simp only [List.map_cons, List.map_nil, List.cons.injEq] at h3
      have hd10 : d < 10 :=
        Nat.digits_lt_base (by norm_num) (by rw [hds]; simp)
      have hd0 : d = 0 :=
        digitChar_inj_lt d hd10 0 (by norm_num) (by simpa using h3.1)
      have h5 : n = Nat.ofDigits 10 (Nat.digits 10 n) := (Nat.ofDigits_digits 10 n).symm
      rw [hds, hd0] at h5
      simp [Nat.ofDigits] at h5
      omega
    · simp at h3

lemma natRepr_injective : Function.Injective Nat.repr := by
  intro m n h
  rcases Nat.eq_zero_or_pos m with hm | hm <;> rcases Nat.eq_zero_or_pos n with hn | hn
  · omega
  · exact absurd (hm ▸ h.symm) (repr_pos_ne_repr_zero hn)
  · exact absurd (hn ▸ h) (repr_pos_ne_repr_zero hm)
  · rw [repr_eq_digits hm, repr_eq_digits hn] at h
    have h2 := asString_inj h
    rw [List.reverse_inj] at h2
    have h3 := map_digitChar_inj _ _
      (fun d hd => Nat.digits_lt_base (by norm_num) hd)
      (fun d hd => Nat.digits_lt_base (by norm_num) hd) h2
    exact Nat.digits.injective 10 h3

lemma string_append_left_cancel {p s t : String} (h : p ++ s = p ++ t) : s = t := by
  apply String.ext
  have h2 := congrArg String.data h
  rw [String.data_append, String.data_append] at h2
  exact List.append_cancel_left h2

lemma cName_ne_tName (a b : String) : ("C" ++ a) ≠ ("T" ++ b) := by
  intro h
  have h2 := congrArg String.data h
  rw [String.data_append, String.data_append] at h2
  rw [show ("C" : String).data = ['C'] from rfl,
      show ("T" : String).data = ['T'] from rfl] at h2
  simp at h2

/-! ### Enumeration and Python-dict helper lemmas -/

lemma enumFrom_filter_lt_nil {α : Type} :
    ∀ (l : List α) (s k : Nat), k ≤ s →
      (List.enumFrom s l).filter (fun p => decide (p.1 < k)) = [] := by
  intro l
  induction l with
  | nil => intro s k _; simp
  | cons a t ih =>
    intro s k hk
    simp only [List.enumFrom, List.filter_cons]
    rw [decide_eq_false (by omega)]
    exact ih (s + 1) k (by omega)

lemma enumFrom_filter_lt {α : Type} :
    ∀ (l : List α) (s k : Nat),
      (List.enumFrom s l).filter (fun p => decide (p.1 < s + k)) =
        List.enumFrom s (l.take k) := by
  intro l
  induction l with
  | nil => intro s k; simp
  | cons a t ih =>
    intro s k
    cases k with
    | zero =>
      simp only [List.take_zero, List.enumFrom, List.filter_cons, Nat.add_zero]
      rw [decide_eq_false (by omega)]
      exact enumFrom_filter_lt_nil t (s + 1) s (by omega)
    | succ k =>
      simp only [List.take_succ_cons, List.enumFrom, List.filter_cons]
      rw [decide_eq_true (by omega : s < s + (k + 1))]
      have h2 : s + (k + 1) = (s + 1) + k := by omega
      rw [h2, ih (s + 1) k]
      simp

lemma enumFrom_filter_ge_all {α : Type} :
    ∀ (l : List α) (s k : Nat), k ≤ s →
      (List.enumFrom s l).filter (fun p => !decide (p.1 < k)) = List.enumFrom s l := by
  intro l
  induction l with
  | nil => intro s k _; simp
  | cons a t ih =>
    intro s k hk
    simp only [List.enumFrom, List.filter_cons]
    rw [decide_eq_false (by omega), Bool.not_false, if_pos rfl]
    rw [ih (s + 1) k (by omega)]

lemma enumFrom_filter_ge {α : Type} :
    ∀ (l : List α) (s k : Nat),
      (List.enumFrom s l).filter (fun p => !decide (p.1 < s + k)) =
        List.enumFrom (s + k) (l.drop k) := by
  intro l
  induction l with
  | nil => intro s k; simp
  | cons a t ih =>
    intro s k
    cases k with
    | zero =>
      simp only [List.drop_zero, List.enumFrom, List.filter_cons, Nat.add_zero]
      rw [decide_eq_false (by omega), Bool.not_false, if_pos rfl]
      rw [enumFrom_filter_ge_all t (s + 1) s (by omega)]
    | succ k =>
      simp only [List.drop_succ_cons, List.enumFrom, List.filter_cons]
      rw [decide_eq_true (by omega : s < s + (k + 1)), Bool.not_true, if_neg (by simp)]
      have h2 : s + (k + 1) = (s + 1) + k := by omega
      rw [h2, ih (s + 1) k]

lemma dictContains_append (d1 d2 : AnnDict) (k : String) :
    dictContains (d1 ++ d2) k = (dictContains d1 k || dictContains d2 k) := by
  simp [dictContains, List.any_append]

lemma foldl_dictInsert_fresh (mid : Nat) :
    ∀ (l : List (Nat × String)) (anns : AnnDict),
      (∀ p ∈ l, ¬ dictContains anns p.2 = true) →
      (l.map Prod.snd).Nodup →
      l.foldl (fun a p => dictInsert a p.2 (annFor mid p.1)) anns
        = anns ++ (l.map fun p => (p.2, annFor mid p.1)) := by
  intro l
  induction l with
  | nil => intro anns _ _; simp
  | cons hd tl ih =>
    intro anns hfresh hnd
    simp only [List.foldl_cons]
    rw [dictInsert, if_neg (by simpa using hfresh hd (by simp))]
    have hd_notin : hd.2 ∉ tl.map Prod.snd := by
      simp only [List.map_cons, List.nodup_cons] at hnd
      exact hnd.1
    rw [ih (anns ++ [(hd.2, annFor mid hd.1)])
      (by
        intro p hp
        rw [dictContains_append]
        simp only [Bool.or_eq_true, not_or]
        refine ⟨by simpa using hfresh p (by simp [hp]), ?_⟩
        simp only [dictContains, List.any_cons, List.any_nil, Bool.or_false]
        simp only [beq_iff_eq]
        intro hcontra
        exact hd_notin (by simpa [hcontra] using List.mem_map_of_mem Prod.snd hp))
      (by simp only [List.map_cons, List.nodup_cons] at hnd; exact hnd.2)]
    simp [List.append_assoc]

lemma auto_annotate_eq (cols : List String) (h : cols.Nodup) :
    auto_annotate_columns cols
      = cols.enum.map fun p => (p.2, annFor (cols.length / 2) p.1) := by
  show cols.enum.foldl
      (fun anns p => dictInsert anns p.2 (annFor (cols.length / 2) p.1)) [] = _
  rw [foldl_dictInsert_fresh (cols.length / 2) cols.enum []
    (by intro p _; simp [dictContains])
    (by rw [List.enum_map_snd]; exact h)]
  simp

lemma annFor_condition_control (mid i : Nat) :
    ((annFor mid i).condition == "Control") = decide (i < mid) := by
  by_cases h : i < mid <;> simp [annFor, h]

lemma annFor_condition_treatment (mid i : Nat) :
    ((annFor mid i).condition == "Treatment") = !decide (i < mid) := by
  by_cases h : i < mid <;> simp [annFor, h]

lemma enum_filter_lt {α : Type} (l : List α) (k : Nat) :
    l.enum.filter (fun p => decide (p.1 < k)) = (l.take k).enum := by
  have h := enumFrom_filter_lt l 0 k
  simpa using h

lemma enum_filter_ge {α : Type} (l : List α) (k : Nat) :
    l.enum.filter (fun p => !decide (p.1 < k)) = List.enumFrom k (l.drop k) := by
  have h := enumFrom_filter_ge l 0 k
  simpa using h

lemma enum_map_index {α β : Type} (l : List α) (g : Nat → β) :
    l.enum.map (fun p => g p.1) = (List.range l.length).map g := by
  rw [show (fun p : Nat × α => g p.1) = g ∘ Prod.fst from rfl, ← List.map_map,
    List.enum_map_fst]

lemma enumFrom_map_index {α β : Type} (s : Nat) (l : List α) (g : Nat → β) :
    (List.enumFrom s l).map (fun p => g p.1) = (List.range' s l.length).map g := by
  rw [show (fun p : Nat × α => g p.1) = g ∘ Prod.fst from rfl, ← List.map_map,
    List.enumFrom_map_fst]

/-- C5: on `N` distinct numeric column names, the default annotator assigns
exactly `⌊N/2⌋` columns — the first half, in order — to `Control` with
display names `C1..C⌊N/2⌋`, and the remaining `N − ⌊N/2⌋` columns to
`Treatment` with display names `T1..T(N−⌊N/2⌋)`; every numeric column is
covered exactly once and no display name is duplicated. -/
theorem c5_default_annotator_split (cols : List String) (h : cols.Nodup) :
    ((auto_annotate_columns cols).filter fun p => p.2.condition == "Control").length
        = cols.length / 2
    ∧ ((auto_annotate_columns cols).filter fun p => p.2.condition == "Treatment").length
        = cols.length - cols.length / 2
    ∧ ((auto_annotate_columns cols).filter fun p => p.2.condition == "Control").map Prod.fst
        = cols.take (cols.length / 2)
    ∧ ((auto_annotate_columns cols).filter fun p => p.2.condition == "Control").map
          (fun p => p.2.renamed)
        = (List.range (cols.length / 2)).map (fun i => "C" ++ Nat.repr (i + 1))
    ∧ ((auto_annotate_columns cols).filter fun p => p.2.condition == "Treatment").map Prod.fst
        = cols.drop (cols.length / 2)
    ∧ ((auto_annotate_columns cols).filter fun p => p.2.condition == "Treatment").map
          (fun p => p.2.renamed)
        = (List.range (cols.length - cols.length / 2)).map (fun i => "T" ++ Nat.repr (i + 1))
    ∧ (auto_annotate_columns cols).map Prod.fst = cols
    ∧ ((auto_annotate_columns cols).map fun p => p.2.renamed).Nodup := by
  have hEq := auto_annotate_eq cols h
  have hk : cols.length / 2 ≤ cols.length := Nat.div_le_self _ _
  have hfC : (auto_annotate_columns cols).filter (fun p => p.2.condition == "Control")
      = (cols.take (cols.length / 2)).enum.map
          (fun p => (p.2, annFor (cols.length / 2) p.1)) := by
    rw [hEq, List.filter_map]
    rw [List.filter_congr (fun p _ => by
      show ((annFor (cols.length / 2) p.1).condition == "Control") = decide (p.1 < cols.length / 2)
      exact annFor_condition_control _ _)]
    rw [enum_filter_lt]
  have hfT : (auto_annotate_columns cols).filter (fun p => p.2.condition == "Treatment")
      = (List.enumFrom (cols.length / 2) (cols.drop (cols.length / 2))).map
          (fun p => (p.2, annFor (cols.length / 2) p.1)) := by
    rw [hEq, List.filter_map]
    rw [List.filter_congr (fun p _ => by
      show ((annFor (cols.length / 2) p.1).condition == "Treatment")
          = !decide (p.1 < cols.length / 2)
      exact annFor_condition_treatment _ _)]
    rw [enum_filter_ge]
  have hCfst : ((auto_annotate_columns cols).filter
      fun p => p.2.condition == "Control").map Prod.fst = cols.take (cols.length / 2) := by
    rw [hfC, List.map_map]
    exact List.enum_map_snd _
  have hTfst : ((auto_annotate_columns cols).filter
      fun p => p.2.condition == "Treatment").map Prod.fst = cols.drop (cols.length / 2) := by
    rw [hfT, List.map_map]
    exact List.enumFrom_map_snd _ _
  refine ⟨?_, ?_, hCfst, ?_, hTfst, ?_, ?_, ?_⟩
  · have h2 := congrArg List.length hCfst
    rw [List.length_map, List.length_take] at h2
    rw [h2, min_eq_left hk]
  · have h2 := congrArg List.length hTfst
    rw [List.length_map, List.length_drop] at h2
    exact h2
  · rw [hfC, List.map_map]
    show (cols.take (cols.length / 2)).enum.map
        (fun p => (annFor (cols.length / 2) p.1).renamed) = _
    rw [enum_map_index _ (fun i => (annFor (cols.length / 2) i).renamed),
      List.length_take, min_eq_left hk]
    refine List.map_congr_left fun i hi => ?_
    rw [List.mem_range] at hi
    simp [annFor, hi]
  · rw [hfT, List.map_map]
    show (List.enumFrom (cols.length / 2) (cols.drop (cols.length / 2))).map
        (fun p => (annFor (cols.length / 2) p.1).renamed) = _
    rw [enumFrom_map_index _ _ (fun i => (annFor (cols.length / 2) i).renamed),
      List.length_drop, List.range'_eq_map_range, List.map_map]
    refine List.map_congr_left fun j _ => ?_
    show (annFor (cols.length / 2) (cols.length / 2 + j)).renamed = _
    have hnot : ¬ (cols.length / 2 + j < cols.length / 2) := by omega
    simp [annFor, hnot, Nat.add_sub_cancel_left]
  · rw [hEq, List.map_map]
    exact List.enum_map_snd _
  · rw [hEq, List.map_map]
    show (cols.enum.map fun p => (annFor (cols.length / 2) p.1).renamed).Nodup
    rw [enum_map_index _ (fun i => (annFor (cols.length / 2) i).renamed)]
    refine List.Nodup.map_on ?_ (List.nodup_range _)
    intro i hi j hj hij
    rw [List.mem_range] at hi hj
    by_cases hik : i < cols.length / 2 <;> by_cases hjk : j < cols.length / 2
    · simp only [annFor, if_pos hik, if_pos hjk] at hij
      have h2 := natRepr_injective (string_append_left_cancel hij)
      omega
    · simp only [annFor, if_pos hik, if_neg hjk] at hij
      exact absurd hij (cName_ne_tName _ _)
    · simp only [annFor, if_neg hik, if_pos hjk] at hij
      exact absurd hij.symm (cName_ne_tName _ _)
    · simp only [annFor, if_neg hik, if_neg hjk] at hij
      have h2 := natRepr_injective (string_append_left_cancel hij)
      omega

/-- Witness for C5 at five distinct column names. -/
theorem c5_default_annotator_split_witness :
    (["a", "b", "c", "d", "e"] : List String).Nodup
    ∧ ((auto_annotate_columns ["a", "b", "c", "d", "e"]).filter
        fun p => p.2.condition == "Control").length = 2 :=
  ⟨by decide, (c5_default_annotator_split ["a", "b", "c", "d", "e"] (by decide)).1⟩

lemma fill_missing_adds :
    ∀ (cols : List String) (anns : AnnDict),
      ∃ added : AnnDict,
        fill_missing_anns anns cols = anns ++ added
        ∧ ∀ p ∈ added, p.1 ∈ cols ∧ dictContains anns p.1 = false
            ∧ p.2 = ⟨"Control", p.1⟩ := by
  intro cols
  induction cols with
  | nil => intro anns; exact ⟨[], by simp [fill_missing_anns], by simp⟩
  | cons c cs ih =>
    intro anns
    simp only [fill_missing_anns, List.foldl_cons]
    by_cases hc : dictContains anns c = true
    · rw [if_pos hc]
      obtain ⟨added, h1, h2⟩ := ih anns
      exact ⟨added, h1, fun p hp =>
        ⟨List.mem_cons_of_mem c (h2 p hp).1, (h2 p hp).2.1, (h2 p hp).2.2⟩⟩
    · rw [if_neg hc]
      obtain ⟨added, h1, h2⟩ := ih (anns ++ [(c, ⟨"Control", c⟩)])
      refine ⟨(c, ⟨"Control", c⟩) :: added, ?_, ?_⟩
      · show fill_missing_anns (anns ++ [(c, ⟨"Control", c⟩)]) cs
            = anns ++ (c, (⟨"Control", c⟩ : AnnEntry)) :: added
        rw [h1]; simp
      · intro p hp
        rcases List.mem_cons.mp hp with hp1 | hp1
        · subst hp1
          exact ⟨List.mem_cons_self c cs, by simpa using hc, rfl⟩
        · have h3 := h2 p hp1
          refine ⟨List.mem_cons_of_mem c h3.1, ?_, h3.2.2⟩
          have h4 := h3.2.1
          rw [dictContains_append] at h4
          simp only [Bool.or_eq_false_iff] at h4
          exact h4.1

/-- C6: invoking the default-annotation code path on a non-empty annotation
dict preserves every existing entry in place and only appends default
entries for numeric columns that are not yet annotated. -/
theorem c6_step_preserves_existing (existing : AnnDict) (cols : List String)
    (h : existing ≠ []) :
    ∃ added : AnnDict,
      annotate_step existing cols = existing ++ added
      ∧ ∀ p ∈ added, p.1 ∈ cols ∧ dictContains existing p.1 = false
          ∧ p.2 = ⟨"Control", p.1⟩ := by
  have hstep : annotate_step existing cols = fill_missing_anns existing cols := by
    simp only [annotate_step]
    rw [if_neg (fun hcon => h hcon.1)]
  rw [hstep]
  exact fill_missing_adds cols existing

/-- Witness for C6: one manual override present, one new numeric column. -/
theorem c6_step_preserves_existing_witness :
    (([("colA", ⟨"Treatment", "myname"⟩)] : AnnDict) ≠ [])
    ∧ ∃ added : AnnDict,
        annotate_step [("colA", ⟨"Treatment", "myname"⟩)] ["colA", "colB"]
          = [("colA", ⟨"Treatment", "myname"⟩)] ++ added
        ∧ ∀ p ∈ added, p.1 ∈ ["colA", "colB"]
            ∧ dictContains [("colA", ⟨"Treatment", "myname"⟩)] p.1 = false
            ∧ p.2 = ⟨"Control", p.1⟩ :=
  ⟨by decide, c6_step_preserves_existing _ _ (by decide)⟩

lemma eq_of_mem_of_nodup_keys {β : Type} :
    ∀ (l : List (String × β)), (l.map Prod.fst).Nodup →
      ∀ {k : String} {a b : β}, (k, a) ∈ l → (k, b) ∈ l → a = b := by
  intro l
  induction l with
  | nil => intro _ _ _ _ ha _; simp at ha
  | cons hd tl ih =>
    intro hnd k a b ha hb
    simp only [List.map_cons, List.nodup_cons] at hnd
    rcases List.mem_cons.mp ha with ha1 | ha1 <;> rcases List.mem_cons.mp hb with hb1 | hb1
    · exact congrArg Prod.snd (ha1.trans hb1.symm)
    · exfalso
      apply hnd.1
      rw [show hd.1 = k from (congrArg Prod.fst ha1).symm]
      exact List.mem_map_of_mem Prod.fst hb1
    · exfalso
      apply hnd.1
      rw [show hd.1 = k from (congrArg Prod.fst hb1).symm]
      exact List.mem_map_of_mem Prod.fst ha1
    · exact ih hnd.2 ha1 hb1

/-- C4: the metadata and numerical column lists returned by
`detect_column_types` partition the matrix's columns: their concatenation
is a permutation of the full column list, and (for distinct column names)
the two lists are disjoint. -/
theorem c4_classification_partitions (df : DataFrame) (h : (df.map Prod.fst).Nodup) :
    ((detect_column_types df).1 ++ (detect_column_types df).2).Perm (df.map Prod.fst)
    ∧ List.Disjoint (detect_column_types df).1 (detect_column_types df).2 := by
  constructor
  · show ((df.filter fun c => isAllNonNumeric c.2).map Prod.fst
        ++ (df.filter fun c => !isAllNonNumeric c.2).map Prod.fst).Perm _
    rw [← List.map_append]
    exact List.Perm.map Prod.fst (List.filter_append_perm _ df)
  · intro x hx1 hx2
    obtain ⟨p1, hp1, he1⟩ := List.mem_map.mp hx1
    obtain ⟨p2, hp2, he2⟩ := List.mem_map.mp hx2
    rw [List.mem_filter] at hp1 hp2
    have m1 : (x, p1.2) ∈ df := by rw [← he1]; exact hp1.1
    have m2 : (x, p2.2) ∈ df := by rw [← he2]; exact hp2.1
    have hcells : p1.2 = p2.2 := eq_of_mem_of_nodup_keys df h m1 m2
    have hb1 := hp1.2
    have hb2 := hp2.2
    rw [hcells] at hb1
    rw [hb1] at hb2
    simp at hb2

/-- Witness for C4 at a two-column matrix. -/
theorem c4_classification_partitions_witness :
    (([("id", [Cell.text "p1"]), ("s1", [Cell.num 3])] : DataFrame).map Prod.fst).Nodup
    ∧ ((detect_column_types [("id", [Cell.text "p1"]), ("s1", [Cell.num 3])]).1
          ++ (detect_column_types [("id", [Cell.text "p1"]), ("s1", [Cell.num 3])]).2).Perm
        (([("id", [Cell.text "p1"]), ("s1", [Cell.num 3])] : DataFrame).map Prod.fst) :=
  ⟨by decide,
    (c4_classification_partitions [("id", [Cell.text "p1"]), ("s1", [Cell.num 3])]
      (by decide)).1⟩

lemma mem_numerical_iff (df : DataFrame) (h : (df.map Prod.fst).Nodup)
    {col : String} {cells : List Cell} (hmem : (col, cells) ∈ df) :
    col ∈ (detect_column_types df).2 ↔ isAllNonNumeric cells = false := by
  constructor
  · intro hc
    obtain ⟨p, hp, he⟩ := List.mem_map.mp hc
    rw [List.mem_filter] at hp
    have m1 : (col, p.2) ∈ df := by rw [← he]; exact hp.1
    have hcells : p.2 = cells := eq_of_mem_of_nodup_keys df h m1 hmem
    have hb := hp.2
    rw [hcells] at hb
    simpa using hb
  · intro hc
    refine List.mem_map.mpr ⟨(col, cells), List.mem_filter.mpr ⟨hmem, ?_⟩, rfl⟩
    simp [hc]

lemma mem_metadata_iff (df : DataFrame) (h : (df.map Prod.fst).Nodup)
    {col : String} {cells : List Cell} (hmem : (col, cells) ∈ df) :
    col ∈ (detect_column_types df).1 ↔ isAllNonNumeric cells = true := by
  constructor
  · intro hc
    obtain ⟨p, hp, he⟩ := List.mem_map.mp hc
    rw [List.mem_filter] at hp
    have m1 : (col, p.2) ∈ df := by rw [← he]; exact hp.1
    have hcells : p.2 = cells := eq_of_mem_of_nodup_keys df h m1 hmem
    have hb := hp.2
    rw [hcells] at hb
    exact hb
  · intro hc
    exact List.mem_map.mpr ⟨(col, cells), List.mem_filter.mpr ⟨hmem, hc⟩, rfl⟩

/-- C2 refutation: in the column `["abc", 5]` not every non-missing cell
coerces to a number (the spec's criterion says Metadata), yet
`detect_column_types` classifies it Numeric. -/
theorem c2_counterexample :
    "mixed" ∈ (detect_column_types [("mixed", [Cell.text "abc", Cell.num 5])]).2
    ∧ spec_all_nonmissing_coerce [Cell.text "abc", Cell.num 5] = false := by
  decide

lemma mem_numerical_iff_any (df : DataFrame) (h : (df.map Prod.fst).Nodup)
    {col : String} {cells : List Cell} (hmem : (col, cells) ∈ df) :
    col ∈ (detect_column_types df).2
      ↔ (cells.any fun c => (toNumericCell c).isSome) = true := by
  rw [mem_numerical_iff df h hmem]
  simp [isAllNonNumeric, List.all_eq_false, List.any_eq_true, Option.isNone_iff_eq_none,
    Option.isSome_iff_exists]
  constructor
  · rintro ⟨c, hc, hne⟩
    exact ⟨c, hc, by cases hcase : toNumericCell c with
      | none => exact absurd hcase hne
      | some q => exact ⟨q, rfl⟩⟩
  · rintro ⟨c, hc, q, hq⟩
    exact ⟨c, hc, by rw [hq]; simp⟩

/-- C2 as amended: a column is classified Numeric iff at least one of its
cells coerces to a number (and Metadata otherwise). -/
theorem c2_numeric_iff_some_cell_coerces (df : DataFrame)
    (h : (df.map Prod.fst).Nodup)
    (col : String) (cells : List Cell) (hmem : (col, cells) ∈ df) :
    col ∈ (detect_column_types df).2
      ↔ (cells.any fun c => (toNumericCell c).isSome) = true :=
  mem_numerical_iff_any df h hmem

/-- Witness for the amended C2 at a mixed text/number column. -/
theorem c2_numeric_iff_some_cell_coerces_witness :
    (([("mixed", [Cell.text "abc", Cell.num 5])] : DataFrame).map Prod.fst).Nodup
    ∧ ("mixed" ∈ (detect_column_types [("mixed", [Cell.text "abc", Cell.num 5])]).2
        ↔ (([Cell.text "abc", Cell.num 5]).any fun c => (toNumericCell c).isSome) = true) :=
  ⟨by decide,
    c2_numeric_iff_some_cell_coerces _ (by decide) "mixed" _ (by decide)⟩

/-- C3: a column is classified Metadata exactly when all of its cells fail
numeric coercion, and any column with at least one coercible cell is
classified Numeric. -/
theorem c3_metadata_only_when_all_fail (df : DataFrame)
    (h : (df.map Prod.fst).Nodup)
    (col : String) (cells : List Cell) (hmem : (col, cells) ∈ df) :
    (col ∈ (detect_column_types df).1
        ↔ (cells.all fun c => (toNumericCell c).isNone) = true)
    ∧ ((cells.any fun c => (toNumericCell c).isSome) = true
        → col ∈ (detect_column_types df).2) := by
  refine ⟨mem_metadata_iff df h hmem, fun hany => ?_⟩
  exact (mem_numerical_iff_any df h hmem).mpr hany

/-- Witness for C3 at a fully textual column. -/
theorem c3_metadata_only_when_all_fail_witness :
    (([("gene", [Cell.text "TP53", Cell.text "EGFR"])] : DataFrame).map Prod.fst).Nodup
    ∧ ("gene" ∈ (detect_column_types [("gene", [Cell.text "TP53", Cell.text "EGFR"])]).1
        ↔ (([Cell.text "TP53", Cell.text "EGFR"]).all
            fun c => (toNumericCell c).isNone) = true) :=
  ⟨by decide,
    (c3_metadata_only_when_all_fail _ (by decide) "gene" _ (by decide)).1⟩

/-- C10: a column whose cells are all absent — in particular every column
of a zero-row matrix — is classified Metadata and not Numeric. -/
theorem c10_all_missing_is_metadata (df : DataFrame)
    (h : (df.map Prod.fst).Nodup)
    (col : String) (cells : List Cell) (hmem : (col, cells) ∈ df)
    (hall : ∀ c ∈ cells, c = Cell.na) :
    col ∈ (detect_column_types df).1 ∧ col ∉ (detect_column_types df).2 := by
  have hT : isAllNonNumeric cells = true := by
    simp only [isAllNonNumeric, List.all_eq_true]
    intro c hc
    rw [hall c hc]
    rfl
  refine ⟨(mem_metadata_iff df h hmem).mpr hT, fun hcon => ?_⟩
  have h2 := (mem_numerical_iff df h hmem).mp hcon
  rw [hT] at h2
  simp at h2

/-- Witness for C10: an all-NA column and an empty (zero-row) column. -/
theorem c10_all_missing_is_metadata_witness :
    ("x" ∈ (detect_column_types [("x", [Cell.na, Cell.na]), ("y", [])]).1
      ∧ "x" ∉ (detect_column_types [("x", [Cell.na, Cell.na]), ("y", [])]).2)
    ∧ ("y" ∈ (detect_column_types [("x", [Cell.na, Cell.na]), ("y", [])]).1
      ∧ "y" ∉ (detect_column_types [("x", [Cell.na, Cell.na]), ("y", [])]).2) :=
  ⟨c10_all_missing_is_metadata _ (by decide) "x" [Cell.na, Cell.na] (by decide) (by decide),
   c10_all_missing_is_metadata _ (by decide) "y" [] (by decide) (by decide)⟩

lemma noText_map_replace01 (cells : List Cell) (h : noText cells = true) :
    noText (cells.map replace01) = true := by
  induction cells with
  | nil => rfl
  | cons c t ih =>
    simp only [noText, List.all_cons, Bool.and_eq_true] at h
    simp only [noText, List.map_cons, List.all_cons, Bool.and_eq_true]
    refine ⟨?_, ih h.2⟩
    cases c with
    | num q =>
      by_cases hq : q = 0 ∨ q = 1 <;> simp [replace01, hq, Cell.isText]
    | text s => simpa [Cell.isText] using h.1
    | na => simp [replace01, Cell.isText]

lemma notnaCount_eq_dropnaVals_length (cells : List Cell) (h : noText cells = true) :
    notnaCount cells = (dropnaVals cells).length := by
  induction cells with
  | nil => rfl
  | cons c t ih =>
    simp only [noText, List.all_cons, Bool.and_eq_true] at h
    cases c with
    | num q =>
      simp [notnaCount, dropnaVals, List.filter_cons, List.filterMap_cons, Cell.notna,
        toNumericCell]
      simpa [notnaCount, dropnaVals] using ih h.2
    | text s => simpa [Cell.isText] using h.1
    | na =>
      simp [notnaCount, dropnaVals, List.filter_cons, List.filterMap_cons, Cell.notna,
        toNumericCell]
      simpa [notnaCount, dropnaVals] using ih h.2

lemma dropnaVals_clean (cells : List Cell) :
    dropnaVals (cells.map replace01)
      = (dropnaVals cells).filter (fun v => decide (v ≠ 0) && decide (v ≠ 1)) := by
  induction cells with
  | nil => rfl
  | cons c t ih =>
    cases c with
    | num q =>
      by_cases hq0 : q = 0
      · subst hq0
        simp [replace01, dropnaVals, toNumericCell, List.filter_cons, List.filterMap_cons]
        simpa [dropnaVals] using ih
      · by_cases hq1 : q = 1
        · subst hq1
          simp [replace01, dropnaVals, toNumericCell, List.filter_cons, List.filterMap_cons]
          simpa [dropnaVals] using ih
        · simp [replace01, hq0, hq1, dropnaVals, toNumericCell, List.filter_cons,
            List.filterMap_cons]
          simpa [dropnaVals] using ih
    | text s =>
      simp [replace01, dropnaVals, toNumericCell, List.filterMap_cons]
      simpa [dropnaVals] using ih
    | na =>
      simp [replace01, dropnaVals, toNumericCell, List.filterMap_cons]
      simpa [dropnaVals] using ih

/-- C1: cleaning turns raw 0s and 1s into NaN, so for a numeric (text-free)
column every downstream computation sees exactly the raw numeric values
other than 0 and 1: the non-NA count equals the number of such values and
the surviving value list is their list; on the raw column `[0, 1, 5, 10]`
the pipeline reports exactly 2 valid values whose mean is 15/2 = 7.5. -/
theorem c1_zero_one_and_absent_missing (cells : List Cell) (h : noText cells = true) :
    notnaCount (cells.map replace01)
        = ((dropnaVals cells).filter fun v => decide (v ≠ 0) && decide (v ≠ 1)).length
    ∧ dropnaVals (cells.map replace01)
        = (dropnaVals cells).filter (fun v => decide (v ≠ 0) && decide (v ≠ 1))
    ∧ unique_protein_counts
        [("intensity", [Cell.num 0, Cell.num 1, Cell.num 5, Cell.num 10])] ["intensity"]
        = [2]
    ∧ listMean (dropnaVals (([Cell.num 0, Cell.num 1, Cell.num 5, Cell.num 10]).map
          replace01))
        = 15 / 2 := by
  refine ⟨?_, dropnaVals_clean cells, by decide, ?_⟩
  · rw [notnaCount_eq_dropnaVals_length _ (noText_map_replace01 cells h),
      dropnaVals_clean cells]
  · rw [show dropnaVals (([Cell.num 0, Cell.num 1, Cell.num 5, Cell.num 10]).map replace01)
        = [5, 10] from by decide]
    norm_num [listMean]

/-- Witness for C1 at the raw column `[0, 1, 5, 10]`. -/
theorem c1_zero_one_and_absent_missing_witness :
    noText [Cell.num 0, Cell.num 1, Cell.num 5, Cell.num 10] = true
    ∧ notnaCount (([Cell.num 0, Cell.num 1, Cell.num 5, Cell.num 10]).map replace01)
        = ((dropnaVals [Cell.num 0, Cell.num 1, Cell.num 5, Cell.num 10]).filter
            fun v => decide (v ≠ 0) && decide (v ≠ 1)).length :=
  ⟨by decide, (c1_zero_one_and_absent_missing _ (by decide)).1⟩

lemma foldl_append_flatMap {α β : Type} (g : α → List β) :
    ∀ (l : List α) (acc : List β),
      l.foldl (fun a x => a ++ g x) acc = acc ++ l.flatMap g := by
  intro l
  induction l with
  | nil => intro acc; simp
  | cons a t ih =>
    intro acc
    simp only [List.foldl_cons, List.flatMap_cons, ih, List.append_assoc]

/-- C8: the CV computation is a per-row flat map over the cleaned matrix —
a CV entry (std/mean·100) for a feature row and condition group is emitted
iff the group has at least two non-missing values after cleaning; a row
with fewer valid values in a group contributes nothing for that group while
every other row still contributes, and the run never aborts. -/
theorem c8_cv_entry_iff_two_valid (sqrtFn : ℚ → ℚ) (df : DataFrame)
    (numerical_cols : List String) (anns : AnnDict)
    (h : ((clean_intensity_data df numerical_cols).all fun c => noText c.2) = true) :
    plot_cv_data sqrtFn df numerical_cols anns
      = (namedRows (clean_intensity_data df numerical_cols)).flatMap fun row =>
          (if 2 ≤ (dropnaVals (rowSelect row (numerical_cols.filter
                fun c => annCondition anns c == "Control"))).length
           then [("Control", cvOf sqrtFn (dropnaVals (rowSelect row (numerical_cols.filter
                fun c => annCondition anns c == "Control"))))]
           else [])
          ++ (if 2 ≤ (dropnaVals (rowSelect row (numerical_cols.filter
                fun c => annCondition anns c == "Treatment"))).length
              then [("Treatment", cvOf sqrtFn (dropnaVals (rowSelect row
                  (numerical_cols.filter fun c => annCondition anns c == "Treatment"))))]
              else []) := by
  simp only [plot_cv_data]
  rw [show (fun (cv_data : List (String × ℚ)) (row : List (String × Cell)) =>
      let control_vals := dropnaVals (rowSelect row (numerical_cols.filter
        fun c => annCondition anns c == "Control"))
      let cv1 :=
        if 1 < control_vals.length then cv_data ++ [("Control", cvOf sqrtFn control_vals)]
        else cv_data
      let treatment_vals := dropnaVals (rowSelect row (numerical_cols.filter
        fun c => annCondition anns c == "Treatment"))
      if 1 < treatment_vals.length then cv1 ++ [("Treatment", cvOf sqrtFn treatment_vals)]
      else cv1)
      = fun cv_data row => cv_data ++
          ((if 2 ≤ (dropnaVals (rowSelect row (numerical_cols.filter
                fun c => annCondition anns c == "Control"))).length
            then [("Control", cvOf sqrtFn (dropnaVals (rowSelect row (numerical_cols.filter
                fun c => annCondition anns c == "Control"))))]
            else [])
          ++ (if 2 ≤ (dropnaVals (rowSelect row (numerical_cols.filter
                fun c => annCondition anns c == "Treatment"))).length
              then [("Treatment", cvOf sqrtFn (dropnaVals (rowSelect row
                  (numerical_cols.filter fun c => annCondition anns c == "Treatment"))))]
              else [])) from by
    funext cv_data row
    simp only [show ∀ n : Nat, (2 ≤ n) = (1 < n) from fun n => rfl]
    by_cases h1 : 1 < (dropnaVals (rowSelect row (numerical_cols.filter
        fun c => annCondition anns c == "Control"))).length
      <;> by_cases h2 : 1 < (dropnaVals (rowSelect row (numerical_cols.filter
        fun c => annCondition anns c == "Treatment"))).length
      <;> simp [h1, h2, List.append_assoc]]
  rw [foldl_append_flatMap]
  simp

/-- Witness for C8: two all-Control samples, one feature with two valid
values, producing exactly one Control CV entry. -/
theorem c8_cv_entry_iff_two_valid_witness :
    ((clean_intensity_data [("s1", [Cell.num 5]), ("s2", [Cell.num 6])] ["s1", "s2"]).all
        fun c => noText c.2) = true
    ∧ plot_cv_data (fun q => q) [("s1", [Cell.num 5]), ("s2", [Cell.num 6])] ["s1", "s2"]
        [("s1", ⟨"Control", "C1"⟩), ("s2", ⟨"Control", "C2"⟩)]
        = [("Control", cvOf (fun q => q) [5, 6])] := by
  refine ⟨by decide, ?_⟩
  rw [c8_cv_entry_iff_two_valid (fun q => q) _ _ _ (by decide)]
  have h1 : namedRows (clean_intensity_data
      [("s1", [Cell.num 5]), ("s2", [Cell.num 6])] ["s1", "s2"])
      = [[("s1", Cell.num 5), ("s2", Cell.num 6)]] := by decide
  have h2 : (["s1", "s2"].filter fun c =>
      annCondition [("s1", ⟨"Control", "C1"⟩), ("s2", ⟨"Control", "C2"⟩)] c == "Control")
      = ["s1", "s2"] := by decide
  have h3 : (["s1", "s2"].filter fun c =>
      annCondition [("s1", ⟨"Control", "C1"⟩), ("s2", ⟨"Control", "C2"⟩)] c == "Treatment")
      = [] := by decide
  have h4 : dropnaVals (rowSelect [("s1", Cell.num 5), ("s2", Cell.num 6)] ["s1", "s2"])
      = [5, 6] := by decide
  rw [h1, h2, h3]
  simp only [List.flatMap_cons, List.flatMap_nil, List.append_nil]
  rw [h4]
  simp [rowSelect, dropnaVals]

lemma notna_filter_lengths (row : List Cell) :
    notnaCount row + (row.filter fun c => !c.notna).length = row.length := by
  have h2 := (List.filter_append_perm Cell.notna row).length_eq
  simpa [notnaCount, List.length_append] using h2

lemma keepRow_iff (n : Nat) (row : List Cell) (hlen : row.length = n) :
    keepRow n row = true ↔ 2 * (row.filter fun c => !c.notna).length ≤ n := by
  have hpart := notna_filter_lengths row
  simp only [keepRow, decide_eq_true_eq]
  constructor
  · intro hq
    have h2 : (n : ℚ) ≤ 2 * (notnaCount row : ℚ) := by linarith
    have h3 : n ≤ 2 * notnaCount row := by exact_mod_cast h2
    omega
  · intro hle
    have h3 : n ≤ 2 * notnaCount row := by omega
    have h2 : (n : ℚ) ≤ 2 * (notnaCount row : ℚ) := by exact_mod_cast h3
    linarith

/-- C7 as amended: in the PCA preprocessing of `plot_pca`, a feature row is
dropped exactly when it is missing in more than half of the samples (kept
iff its NA count is at most half); every remaining NA cell is imputed with
the mean over its sample's (column's) non-missing values among the kept
feature rows — not the feature's own row mean — staying NA only when that
whole column is NA, and every non-NA cell is unchanged. -/
theorem c7_pca_drop_and_impute (df : DataFrame) (numerical_cols : List String)
    (h : (df.all fun c => noText c.2) = true) :
    (∀ row ∈ cellRows (clean_intensity_data df numerical_cols),
        (row ∈ pca_kept df numerical_cols
          ↔ 2 * (row.filter fun c => !c.notna).length ≤ numerical_cols.length))
    ∧ ∀ i j : Nat, ∀ hi : i < (pca_kept df numerical_cols).length,
        j < ((pca_kept df numerical_cols).getD i []).length →
        ((plot_pca_matrix df numerical_cols).getD i []).getD j Cell.na
          = (if ((pca_kept df numerical_cols).getD i []).getD j Cell.na = Cell.na
             then match seriesMean (pcaCol (pca_kept df numerical_cols) j) with
                  | some m => Cell.num m
                  | none => Cell.na
             else ((pca_kept df numerical_cols).getD i []).getD j Cell.na) := by
  constructor
  · intro row hrow
    have hlen : row.length = numerical_cols.length := by
      obtain ⟨i, _, hrw⟩ := List.mem_map.mp hrow
      rw [← hrw]
      simp [cellRow, clean_intensity_data]
    constructor
    · intro hk
      exact (keepRow_iff _ _ hlen).mp (List.mem_filter.mp hk).2
    · intro hle
      exact List.mem_filter.mpr ⟨hrow, (keepRow_iff _ _ hlen).mpr hle⟩
  · intro i j hi hj
    have hj2 : j < (pca_kept df numerical_cols)[i].length := by
      rw [List.getD_eq_getElem _ _ hi] at hj
      exact hj
    show (((pca_kept df numerical_cols).map
        (fun row => row.enum.map (fillCell (pca_kept df numerical_cols)))).getD i
          []).getD j Cell.na = _
    rw [@List.getD_eq_getElem _ ((pca_kept df numerical_cols).map
        (fun row => row.enum.map (fillCell (pca_kept df numerical_cols)))) [] i
        (by simpa [List.length_map] using hi)]
    rw [List.getElem_map]
    rw [@List.getD_eq_getElem _ ((pca_kept df numerical_cols)[i].enum.map
        (fillCell (pca_kept df numerical_cols))) Cell.na j
        (by simpa [List.length_map, List.enum_length] using hj2)]
    rw [List.getElem_map, List.getElem_enum]
    rw [@List.getD_eq_getElem _ (pca_kept df numerical_cols) [] i hi]
    rw [@List.getD_eq_getElem _ ((pca_kept df numerical_cols)[i]) Cell.na j hj2]
    cases hcell : (pca_kept df numerical_cols)[i][j] with
    | na => simp [fillCell]
    | num q => simp [fillCell]
    | text s => simp [fillCell]

/-- Witness for C7 at the matrix with columns s1 = [2, 4], s2 = [NaN, 8]. -/
theorem c7_pca_drop_and_impute_witness :
    ((([("s1", [Cell.num 2, Cell.num 4]), ("s2", [Cell.na, Cell.num 8])] : DataFrame)).all
        fun c => noText c.2) = true
    ∧ ([Cell.num 2, Cell.na] ∈ cellRows (clean_intensity_data
        [("s1", [Cell.num 2, Cell.num 4]), ("s2", [Cell.na, Cell.num 8])] ["s1", "s2"]))
    ∧ ([Cell.num 2, Cell.na] ∈ pca_kept
          [("s1", [Cell.num 2, Cell.num 4]), ("s2", [Cell.na, Cell.num 8])] ["s1", "s2"]
        ↔ 2 * (([Cell.num 2, Cell.na]).filter fun c => !c.notna).length
            ≤ (["s1", "s2"] : List String).length) :=
  ⟨by decide, by decide,
    (c7_pca_drop_and_impute [("s1", [Cell.num 2, Cell.num 4]), ("s2", [Cell.na, Cell.num 8])]
      ["s1", "s2"] (by decide)).1 [Cell.num 2, Cell.na] (by decide)⟩

/-- C7 refutation of the claim as stated: at the matrix with columns
s1 = [2, 4] and s2 = [NaN, 8] (both rows kept), the missing cell of feature
row 0 is imputed with 8, the mean of sample column s2 over kept rows, while
the feature's own mean over its non-missing values is 2 — so the produced
PCA input differs from the spec's per-feature (row mean) imputation. -/
theorem c7_counterexample :
    plot_pca_matrix [("s1", [Cell.num 2, Cell.num 4]), ("s2", [Cell.na, Cell.num 8])]
        ["s1", "s2"]
      = [[Cell.num 2, Cell.num 8], [Cell.num 4, Cell.num 8]]
    ∧ spec_pca_matrix [("s1", [Cell.num 2, Cell.num 4]), ("s2", [Cell.na, Cell.num 8])]
        ["s1", "s2"]
      = [[Cell.num 2, Cell.num 2], [Cell.num 4, Cell.num 8]]
    ∧ plot_pca_matrix [("s1", [Cell.num 2, Cell.num 4]), ("s2", [Cell.na, Cell.num 8])]
        ["s1", "s2"]
      ≠ spec_pca_matrix [("s1", [Cell.num 2, Cell.num 4]), ("s2", [Cell.na, Cell.num 8])]
        ["s1", "s2"] := by
  have hrows : cellRows (clean_intensity_data
      [("s1", [Cell.num 2, Cell.num 4]), ("s2", [Cell.na, Cell.num 8])] ["s1", "s2"])
      = [[Cell.num 2, Cell.na], [Cell.num 4, Cell.num 8]] := by decide
  have hk1 : keepRow 2 [Cell.num 2, Cell.na] = true := by
    simp only [keepRow, notnaCount, List.filter, Cell.notna]
    rw [decide_eq_true_eq]
    norm_num
  have hk2 : keepRow 2 [Cell.num 4, Cell.num 8] = true := by
    simp only [keepRow, notnaCount, List.filter, Cell.notna]
    rw [decide_eq_true_eq]
    norm_num
  have hkept : pca_kept [("s1", [Cell.num 2, Cell.num 4]), ("s2", [Cell.na, Cell.num 8])]
      ["s1", "s2"] = [[Cell.num 2, Cell.na], [Cell.num 4, Cell.num 8]] := by
    show (cellRows (clean_intensity_data
        [("s1", [Cell.num 2, Cell.num 4]), ("s2", [Cell.na, Cell.num 8])]
        ["s1", "s2"])).filter (keepRow 2) = _
    rw [hrows]
    simp [List.filter_cons, hk1, hk2]
  have hmean1 : seriesMean (pcaCol [[Cell.num 2, Cell.na], [Cell.num 4, Cell.num 8]] 1)
      = some 8 := by
    norm_num [pcaCol, seriesMean, dropnaVals, toNumericCell, listMean,
      List.filterMap_cons]
  have hrowmean : seriesMean [Cell.num 2, Cell.na] = some 2 := by
    norm_num [seriesMean, dropnaVals, toNumericCell, listMean, List.filterMap_cons]
  have h1 : plot_pca_matrix [("s1", [Cell.num 2, Cell.num 4]), ("s2", [Cell.na, Cell.num 8])]
      ["s1", "s2"] = [[Cell.num 2, Cell.num 8], [Cell.num 4, Cell.num 8]] := by
    show ((pca_kept [("s1", [Cell.num 2, Cell.num 4]), ("s2", [Cell.na, Cell.num 8])]
        ["s1", "s2"]).map fun row => row.enum.map (fillCell (pca_kept
          [("s1", [Cell.num 2, Cell.num 4]), ("s2", [Cell.na, Cell.num 8])]
          ["s1", "s2"]))) = _
    rw [hkept]
    simp [fillCell, List.enum, List.enumFrom, hmean1]
  have h2 : spec_pca_matrix [("s1", [Cell.num 2, Cell.num 4]), ("s2", [Cell.na, Cell.num 8])]
      ["s1", "s2"] = [[Cell.num 2, Cell.num 2], [Cell.num 4, Cell.num 8]] := by
    show spec_row_mean_impute (pca_kept
        [("s1", [Cell.num 2, Cell.num 4]), ("s2", [Cell.na, Cell.num 8])] ["s1", "s2"]) = _
    rw [hkept]
    simp [spec_row_mean_impute, hrowmean]
  refine ⟨h1, h2, ?_⟩
  rw [h1, h2]
  intro hcon
  simp only [List.cons.injEq, Cell.num.injEq] at hcon
  have h8 : (8 : ℚ) = 2 := hcon.1.2.1
  norm_num at h8
